import Mathlib

/-!
Verification of the recurrence-scheduling core of `src/telegram_listener.py`
(functions `normalize_rrule`, `parse_rrule_to_interval_kwargs`,
`schedule_job_for_task`, `restore_saved_reminders_from_db`).

Python strings are modelled as `List Char` (with `String` wrappers at the
interface).  Python library primitives that the repository's control flow
depends on are modelled faithfully from their documented semantics:
`str.replace`, `str.split`, `str.strip`, `str.upper`, `str.startswith`,
substring membership (`in`), `int(...)` (failure modelled as `none`,
mirroring the `ValueError` that the repository's own `try/except` catches),
`re.sub(r";?UNTIL=[^;]+", ...)`, and `json.loads` (modelled by a JSON
syntax validator `jsonOk` that also accepts the `NaN`/`Infinity`/
`-Infinity` constants `json.loads` accepts by default, since the only
effect of `json.loads` visible to the scheduling code is raise-or-succeed;
the decoded payload is never used to choose a trigger).

APScheduler trigger constructors are modelled including their failure
paths, because the repository's own `try/except` blocks turn those
failures into observable behavior:
- `CronTrigger(day_of_week, hour, minute, timezone)` validates its fields
  (APScheduler 3.x `triggers/cron`): `hour`/`minute` must lie in 0-23 /
  0-59, and `day_of_week` must be a comma-separated list of expressions,
  each `*`, `*/step`, a numeric `first(-last)?(/step)?` within 0-6, or a
  weekday-name `name(-name)?` over `mon`..`sun` (case-insensitive) — so
  the two-letter iCal codes (`MO`, ...) this repository itself generates
  raise `ValueError`, which `parse_rrule_to_interval_kwargs`'s `except`
  converts to `None`.  Modelled by `cronFieldsOk`.
- `IntervalTrigger(timezone=TZ, **kw)` builds
  `datetime.timedelta(**kw)` — `OverflowError` when the normalized days
  exceed ±999,999,999 — and then its default
  `start_date = datetime.now(tz) + interval` — `OverflowError` when the
  result leaves `datetime`'s year range 1..9999.  Modelled by
  `intervalTriggerOk` (the zero-interval one-second clamp is irrelevant at
  these distances from the bounds and is ignored in the bound check);
  these failures happen inside `schedule_job_for_task`'s `try`, which
  returns `False` having already removed the task's previous job.
- `DateTrigger(run_date=now+60s)` cannot fail.

The scheduler's job store is modelled as an association list from job id
to trigger, with `add_job(..., replace_existing=True)` as
remove-then-append.
-/

/-- Characters that require care under source scanners, defined by code point. -/
def lbraceC : Char := Char.ofNat 123

def rbraceC : Char := Char.ofNat 125

def lbrackC : Char := Char.ofNat 91

def rbrackC : Char := Char.ofNat 93

def dquoteC : Char := Char.ofNat 34

def bslashC : Char := Char.ofNat 92

/-- Whitespace characters removed by Python `str.strip()` (ASCII subset). -/
def isPySpace (c : Char) : Bool :=
  c = ' ' || c = Char.ofNat 9 || c = Char.ofNat 10 || c = Char.ofNat 13 ||
  c = Char.ofNat 11 || c = Char.ofNat 12

/-- ASCII decimal digit test (`0`-`9`). -/
def isPyDigit (c : Char) : Bool := 48 ≤ c.toNat && c.toNat ≤ 57

/-- Python `str.strip()`: drop leading and trailing whitespace. -/
def pyStrip (l : List Char) : List Char :=
  ((l.dropWhile isPySpace).reverse.dropWhile isPySpace).reverse

/-- ASCII uppercase of one character, as Python `str.upper()` does on ASCII. -/
def pyUpperChar (c : Char) : Char :=
  if 97 ≤ c.toNat && c.toNat ≤ 122 then Char.ofNat (c.toNat - 32) else c

/-- Python `str.upper()` (ASCII subset; the repository only feeds it ASCII). -/
def pyUpper (l : List Char) : List Char := l.map pyUpperChar

/-- Value of a digit string, most significant digit first. -/
def digitsValNat (l : List Char) : Nat :=
  l.foldl (fun a c => 10 * a + (c.toNat - 48)) 0

/-- Python `int(str)` on the strings this code produces: optional sign and
whitespace around a nonempty run of decimal digits; `none` models the
`ValueError` Python raises otherwise. -/
def pyInt (l : List Char) : Option Int :=
  match pyStrip l with
  | '+' :: rest =>
      if !rest.isEmpty && rest.all isPyDigit then some (digitsValNat rest) else none
  | '-' :: rest =>
      if !rest.isEmpty && rest.all isPyDigit then some (-(digitsValNat rest : Int)) else none
  | t => if !t.isEmpty && t.all isPyDigit then some (digitsValNat t) else none

/-- Decimal digits of `n`, most significant first (fuel-indexed so the
definition is structural and kernel-reducible). -/
def natDigitsAux : Nat → Nat → List Char
  | 0, _ => []
  | _ + 1, 0 => []
  | fuel + 1, n + 1 =>
      natDigitsAux fuel ((n + 1) / 10) ++ [Nat.digitChar ((n + 1) % 10)]

/-- Python `str(n)` for a natural number. -/
def pyStrNat (n : Nat) : String :=
  if n = 0 then "0" else String.mk (natDigitsAux n n)

/-- Python `str.replace(pat, rep)` (all non-overlapping occurrences, left to
right, replaced text not rescanned).  Fuel-indexed for kernel reducibility;
`replaceAll` supplies sufficient fuel.  All patterns used are nonempty. -/
def replaceAllAux (pat rep : List Char) : Nat → List Char → List Char
  | _, [] => []
  | 0, l => l
  | fuel + 1, c :: cs =>
      if pat.isPrefixOf (c :: cs) then
        rep ++ replaceAllAux pat rep fuel (List.drop (pat.length - 1) cs)
      else
        c :: replaceAllAux pat rep fuel cs

/-- Python `str.replace(pat, rep)` for nonempty `pat`. -/
def replaceAll (pat rep l : List Char) : List Char :=
  replaceAllAux pat rep l.length l

/-- Python `str.split(sep)` for a one-character separator:
`"".split(";") = [""]`, empty fields kept. -/
def splitOnChar (sep : Char) : List Char → List (List Char)
  | [] => [[]]
  | c :: cs =>
      if c = sep then [] :: splitOnChar sep cs
      else
        match splitOnChar sep cs with
        | [] => [[c]]
        | h :: t => (c :: h) :: t

/-- Python `kv.split(sep, 1)` when `sep in kv`: the pieces before and after
the first occurrence; `none` when `sep` does not occur. -/
def splitFirst (sep : Char) : List Char → Option (List Char × List Char)
  | [] => none
  | c :: cs =>
      if c = sep then some ([], cs)
      else (splitFirst sep cs).map (fun p => (c :: p.1, p.2))

/-- Python substring membership `pat in s`. -/
def containsSub (pat : List Char) : List Char → Bool
  | [] => pat.isEmpty
  | c :: cs => pat.isPrefixOf (c :: cs) || containsSub pat cs

/-- Length of the match of the regex `;?UNTIL=[^;]+` anchored at the head of
`l` (`0` when there is no match), following Python `re` semantics: the
optional `;` participates only if `UNTIL=` plus at least one non-`;`
character follows, and `[^;]+` is greedy. -/
def untilCore (l : List Char) : Option Nat :=
  if ("UNTIL=".data).isPrefixOf l then
    let body := (l.drop 6).takeWhile (fun c => !(c == ';'))
    if body.isEmpty then none else some (6 + body.length)
  else none

/-- See `untilCore`; adds the optional leading `;`. -/
def untilMatchLen (l : List Char) : Nat :=
  match l with
  | ';' :: rest =>
      match untilCore rest with
      | some k => k + 1
      | none => 0
  | _ => (untilCore l).getD 0

/-- Python `re.sub(r";?UNTIL=[^;]+", "", l)`: scan left to right, removing
every match (fuel-indexed; `pySubUntil` supplies sufficient fuel). -/
def pySubUntilAux : Nat → List Char → List Char
  | 0, l => l
  | _ + 1, [] => []
  | fuel + 1, c :: cs =>
      let k := untilMatchLen (c :: cs)
      if k = 0 then c :: pySubUntilAux fuel cs
      else pySubUntilAux fuel (List.drop k (c :: cs))

/-- Python `re.sub(r";?UNTIL=[^;]+", "", l)`. -/
def pySubUntil (l : List Char) : List Char := pySubUntilAux l.length l

/-- `src/telegram_listener.py`, `normalize_rrule` (lines 53-68): fix common
frequency-token typos, strip `UNTIL=`, and ensure the `RRULE:` prefix. -/
def normalize_rrule (rr : String) : String :=
  if rr.data.isEmpty then rr
  else
    let l0 := pyStrip rr.data
    let l1 := replaceAll ("FREQ=MINUTE".data) ("FREQ=MINUTELY".data) l0
    let l2 := replaceAll ("FREQ=MINUTES".data) ("FREQ=MINUTELY".data) l1
    let l3 := replaceAll ("FREQ=HOUR".data) ("FREQ=HOURLY".data) l2
    let l4 := replaceAll ("FREQ=HOURS".data) ("FREQ=HOURLY".data) l3
    let l5 := replaceAll ("FREQ=DAY".data) ("FREQ=DAILY".data) l4
    let l6 := replaceAll ("FREQ=DAYS".data) ("FREQ=DAILY".data) l5
    let l7 := replaceAll ("EVERYDAY".data) [] l6
    let l8 := pySubUntil l7
    let l9 := if ("RRULE:".data).isPrefixOf l8 then l8 else "RRULE:".data ++ l8
    String.mk l9

/-- The keyword argument passed to APScheduler's `IntervalTrigger`: one of
`seconds=n`, `minutes=n`, `hours=n`, `days=n`, `weeks=n` (the single-entry
dicts of the `mapping` table in `parse_rrule_to_interval_kwargs`). -/
inductive IntervalKW where
  | seconds (n : Int)
  | minutes (n : Int)
  | hours (n : Int)
  | days (n : Int)
  | weeks (n : Int)
deriving DecidableEq, Repr

/-- What `parse_rrule_to_interval_kwargs` returns when it succeeds: either a
`CronTrigger` (modelled by its `day_of_week`, `hour`, `minute` arguments) or
an interval-kwargs dict. -/
inductive ParseResult where
  | cron (day_of_week : List Char) (hour minute : Int)
  | kwargs (kw : IntervalKW)
deriving DecidableEq, Repr

/-- An APScheduler trigger as constructed by `schedule_job_for_task`:
`DateTrigger(run_date=now+60s)` (modelled by the run timestamp in seconds),
`IntervalTrigger(**kw)`, or `CronTrigger(day_of_week, hour, minute)`.
Constructors are free: APScheduler-internal validation is outside the model. -/
inductive PyTrigger where
  | date (runAt : Int)
  | interval (kw : IntervalKW)
  | cron (day_of_week : List Char) (hour minute : Int)
deriving DecidableEq, Repr

/-- Python dict assignment `d[k] = v` on an association list: overwrite in
place if the key exists, else append. -/
def dictInsert (d : List (List Char × List Char)) (k v : List Char) :
    List (List Char × List Char) :=
  match d with
  | [] => [(k, v)]
  | (k', v') :: rest =>
      if k' = k then (k, v) :: rest else (k', v') :: dictInsert rest k v

/-- Python `d.get(k)` on an association list. -/
def dictGet (d : List (List Char × List Char)) (k : List Char) :
    Option (List Char) :=
  match d with
  | [] => none
  | (k', v) :: rest => if k' = k then some v else dictGet rest k

/-- Python truthiness of `parts.get(key)`: `None` and `""` are falsy. -/
def truthyOpt : Option (List Char) → Bool
  | none => false
  | some v => !v.isEmpty

/-- The `parts` dict built by `parse_rrule_to_interval_kwargs` lines 124-127
from the already-prefix-stripped `rule`: split on `;`, and for each piece
containing `=`, split at the first `=` and store
`k.strip().upper() -> v.strip().upper()`. -/
def partsOfBody (rule : List Char) : List (List Char × List Char) :=
  (splitOnChar ';' rule).foldl
    (fun parts kv =>
      match splitFirst '=' kv with
      | some p => dictInsert parts (pyUpper (pyStrip p.1)) (pyUpper (pyStrip p.2))
      | none => parts)
    []

/-- `rule = rrule_str.replace("RRULE:", "")` (line 123) followed by the dict
build of lines 124-127. -/
def partsOfRule (s : List Char) : List (List Char × List Char) :=
  partsOfBody (replaceAll ("RRULE:".data) [] s)

/-- `interval = int(parts.get("INTERVAL", 1))`: the default is the integer
`1`; a present value goes through `int(...)`, whose failure (`none`) is the
`ValueError` caught by the function's `except`. -/
def intervalOfParts (parts : List (List Char × List Char)) : Option Int :=
  match dictGet parts ("INTERVAL".data) with
  | none => some 1
  | some v => pyInt v

/-- `hour = int(byhour) if byhour else 9` (line 137). -/
def hourOfParts (parts : List (List Char × List Char)) : Option Int :=
  match dictGet parts ("BYHOUR".data) with
  | some v => if v.isEmpty then some 9 else pyInt v
  | none => some 9

/-- `minute = int(byminute) if byminute else 0` (line 138). -/
def minuteOfParts (parts : List (List Char × List Char)) : Option Int :=
  match dictGet parts ("BYMINUTE".data) with
  | some v => if v.isEmpty then some 0 else pyInt v
  | none => some 0

/-- `day_of_week = byday if byday else "*"` (line 139). -/
def dowOfParts (parts : List (List Char × List Char)) : List Char :=
  match dictGet parts ("BYDAY".data) with
  | some v => if v.isEmpty then "*".data else v
  | none => "*".data

/-- The `mapping` table of lines 145-151 followed by `mapping.get(freq)`. -/
def freqMapping (freq : List Char) (interval : Int) : Option IntervalKW :=
  if freq = "SECONDLY".data then some (.seconds interval)
  else if freq = "MINUTELY".data then some (.minutes interval)
  else if freq = "HOURLY".data then some (.hours interval)
  else if freq = "DAILY".data then some (.days interval)
  else if freq = "WEEKLY".data then some (.weeks interval)
  else none

/-- ASCII lowercase of one character (Python `str.lower()` on ASCII). -/
def pyLowerChar (c : Char) : Char :=
  if 65 ≤ c.toNat && c.toNat ≤ 90 then Char.ofNat (c.toNat + 32) else c

/-- ASCII `str.lower()`. -/
def pyLower (l : List Char) : List Char := l.map pyLowerChar

/-- ASCII letter test (the `[a-z]+` of APScheduler's weekday regex, with
`re.IGNORECASE`). -/
def isAsciiLetter (c : Char) : Bool :=
  (65 ≤ c.toNat && c.toNat ≤ 90) || (97 ≤ c.toNat && c.toNat ≤ 122)

/-- A `\d+` token, as APScheduler's cron expression regexes require. -/
def numToken (v : List Char) : Option Nat :=
  if !v.isEmpty && v.all isPyDigit then some (digitsValNat v) else none

/-- APScheduler's `WEEKDAYS` index of a weekday-name token
(case-insensitive `mon`..`sun`); `none` raises `ValueError`. -/
def weekdayIndex (v : List Char) : Option Nat :=
  let lv := pyLower v
  if lv = "mon".data then some 0
  else if lv = "tue".data then some 1
  else if lv = "wed".data then some 2
  else if lv = "thu".data then some 3
  else if lv = "fri".data then some 4
  else if lv = "sat".data then some 5
  else if lv = "sun".data then some 6
  else none

/-- APScheduler `RangeExpression` on the `day_of_week` field (values 0-6):
`first(-last)?(/step)?` over `\d+` tokens, with `step >= 1`,
`first <= last <= 6`, and `step` no larger than the value range
(`last - first`, or `6 - first` when `last` is omitted with a step). -/
def dowRangeExprOk (e : List Char) : Bool :=
  match splitFirst '/' e with
  | some p =>
      match numToken p.2 with
      | none => false
      | some step =>
          if step = 0 then false
          else
            match splitFirst '-' p.1 with
            | some q =>
                match numToken q.1, numToken q.2 with
                | some fn, some ln =>
                    decide (fn ≤ ln) && decide (ln ≤ 6) && decide (step ≤ ln - fn)
                | _, _ => false
            | none =>
                match numToken p.1 with
                | some fn => decide (step + fn ≤ 6)
                | none => false
  | none =>
      match splitFirst '-' e with
      | some q =>
          match numToken q.1, numToken q.2 with
          | some fn, some ln => decide (fn ≤ ln) && decide (ln ≤ 6)
          | _, _ => false
      | none =>
          match numToken e with
          | some fn => decide (fn ≤ 6)
          | none => false

/-- APScheduler `WeekdayRangeExpression`: `name(-name)?` over letter-only
tokens, names in `mon`..`sun`, first index not above the last. -/
def dowWeekdayExprOk (e : List Char) : Bool :=
  match splitFirst '-' e with
  | some q =>
      if !q.1.isEmpty && q.1.all isAsciiLetter &&
          !q.2.isEmpty && q.2.all isAsciiLetter then
        match weekdayIndex q.1, weekdayIndex q.2 with
        | some fi, some li => decide (fi ≤ li)
        | _, _ => false
      else false
  | none =>
      if !e.isEmpty && e.all isAsciiLetter then (weekdayIndex e).isSome
      else false

/-- One `day_of_week` expression: `AllExpression` (`*` alone, or `*/step`
with `1 <= step <= 6`), else `RangeExpression` (digit-leading) or
`WeekdayRangeExpression` (letter-leading); the two regexes are disjoint,
so Boolean `or` mirrors APScheduler's first-matching-compiler rule. -/
def dowExprOk (e : List Char) : Bool :=
  if e = "*".data then true
  else if ("*/".data).isPrefixOf e then
    match numToken (e.drop 2) with
    | some step => decide (1 ≤ step) && decide (step ≤ 6)
    | none => false
  else dowRangeExprOk e || dowWeekdayExprOk e

/-- The whole `day_of_week` field value: a comma-separated list of valid
expressions (every expression must compile, or `CronTrigger` raises). -/
def dowFieldOk (v : List Char) : Bool :=
  (splitOnChar ',' v).all dowExprOk

/-- An integer `hour`/`minute` value: `CronTrigger` renders it as a string,
so it must be a bare non-negative number within the field's range
(negative values match no expression regex and raise). -/
def cronIntFieldOk (v : Int) (maxv : Nat) : Bool :=
  decide (0 ≤ v) && decide (v ≤ (maxv : Int))

/-- Whether `CronTrigger(day_of_week=dow, hour=h, minute=m, timezone=TZ)`
constructs without raising `ValueError` (APScheduler 3.x field
validation). -/
def cronFieldsOk (dow : List Char) (h m : Int) : Bool :=
  dowFieldOk dow && cronIntFieldOk h 23 && cronIntFieldOk m 59

/-- Lines 129-153 of `parse_rrule_to_interval_kwargs`, applied to the
`parts` dict: choose the cron branch when any of `BYHOUR`/`BYMINUTE`/`BYDAY`
is truthy, else the interval mapping.  `none` is the `except`-swallowed
`ValueError` from `int(...)` or from the `CronTrigger` constructor
(line 140) rejecting its fields. -/
def parseFromParts (parts : List (List Char × List Char)) : Option ParseResult :=
  let freq := (dictGet parts ("FREQ".data)).getD ("MINUTELY".data)
  match intervalOfParts parts with
  | none => none
  | some interval =>
      if truthyOpt (dictGet parts ("BYHOUR".data)) ||
          truthyOpt (dictGet parts ("BYMINUTE".data)) ||
          truthyOpt (dictGet parts ("BYDAY".data)) then
        match hourOfParts parts, minuteOfParts parts with
        | some h, some m =>
            if cronFieldsOk (dowOfParts parts) h m then
              some (.cron (dowOfParts parts) h m)
            else none
        | _, _ => none
      else
        (freqMapping freq interval).map .kwargs

/-- `src/telegram_listener.py`, `parse_rrule_to_interval_kwargs`
(lines 117-156), on the character list of the rule string.  `none` covers
both the explicit `return None` for a missing/empty `RRULE:` prefix and the
`except`-swallowed failures (`int(...)` raising). -/
def parseL (s : List Char) : Option ParseResult :=
  if s.isEmpty || !(("RRULE:".data).isPrefixOf s) then none
  else parseFromParts (partsOfRule s)

/-- `parse_rrule_to_interval_kwargs` on a `String`. -/
def parse_rrule_to_interval_kwargs (s : String) : Option ParseResult :=
  parseL s.data

/-- The scheduler's job store: association list from job id to trigger. -/
abbrev JobTable := List (String × PyTrigger)

/-- `job_id = f"reminder-{task_id}"` (line 161). -/
def jobId (task_id : Nat) : String := "reminder-" ++ pyStrNat task_id

/-- `scheduler.get_job(job_id)` (first matching entry). -/
def getJob : JobTable → String → Option PyTrigger
  | [], _ => none
  | (i, t) :: rest, id => if i = id then some t else getJob rest id

/-- `scheduler.remove_job(job_id)`: drop entries with this id. -/
def removeJob : JobTable → String → JobTable
  | [], _ => []
  | (i, t) :: rest, id =>
      if i = id then removeJob rest id else (i, t) :: removeJob rest id

/-- `scheduler.add_job(..., id=job_id, replace_existing=True)`. -/
def addJob (tbl : JobTable) (id : String) (trig : PyTrigger) : JobTable :=
  removeJob tbl id ++ [(id, trig)]

/-- Number of live jobs carrying this id. -/
def countId : JobTable → String → Nat
  | [], _ => 0
  | (i, _) :: rest, id => (if i = id then 1 else 0) + countId rest id

/-- Total seconds of the single-entry timedelta kwargs `IntervalTrigger`
receives. -/
def intervalSeconds : IntervalKW → Int
  | .seconds n => n
  | .minutes n => 60 * n
  | .hours n => 3600 * n
  | .days n => 86400 * n
  | .weeks n => 604800 * n

/-- Whether `datetime.timedelta(**kw)` constructs without `OverflowError`:
the normalized day count (floor division, like Python's normalization)
must lie within ±999,999,999. -/
def timedeltaOk (kw : IntervalKW) : Bool :=
  decide (-999999999 ≤ (intervalSeconds kw).fdiv 86400) &&
  decide ((intervalSeconds kw).fdiv 86400 ≤ 999999999)

/-- `datetime.min` (year 1) and `datetime.max` (year 9999) in seconds since
the Unix epoch. -/
def datetimeMinSec : Int := -62135596800

/-- See `datetimeMinSec`. -/
def datetimeMaxSec : Int := 253402300799

/-- Whether `IntervalTrigger(timezone=TZ, **kw)` constructs without
raising: the timedelta itself must be in range, and the default
`start_date = datetime.now(tz) + interval` must stay within `datetime`'s
year range (the zero-interval one-second clamp is ignored; see header). -/
def intervalTriggerOk (now : Int) (kw : IntervalKW) : Bool :=
  timedeltaOk kw &&
  decide (datetimeMinSec ≤ now + intervalSeconds kw) &&
  decide (now + intervalSeconds kw ≤ datetimeMaxSec)

/-- `src/telegram_listener.py`, `schedule_job_for_task` (lines 159-200).
`now` is the current time in seconds (`datetime.datetime.now(TZ)`); the
`datetime.timedelta(seconds=60)` offsets become `now + 60`.  The payload
`params` only feeds the fire-time closure `_run_plan`, never the trigger or
the job table, so it is not part of the model.  The `except` of
lines 198-200 is reached exactly when `IntervalTrigger` construction
overflows (`intervalTriggerOk` false): the function then returns `False`
with no job installed — and the task's previous job was already removed at
lines 162-164, outside the `try`.  (`CronTrigger` failures happen earlier,
inside the parser's own `try`, and surface here as `parse = None`;
`DateTrigger(now+60s)` cannot fail.) -/
def schedule_job_for_task (now : Int) (tbl : JobTable) (task_id : Nat)
    (schedule_rule : String) : Bool × JobTable :=
  let job_id := jobId task_id
  let tbl1 :=
    match getJob tbl job_id with
    | some _ => removeJob tbl job_id
    | none => tbl
  if containsSub ("FREQ=ONCE".data) schedule_rule.data then
    (true, addJob tbl1 job_id (.date (now + 60)))
  else
    match parse_rrule_to_interval_kwargs schedule_rule with
    | some (.cron d h m) => (true, addJob tbl1 job_id (.cron d h m))
    | some (.kwargs kw) =>
        if intervalTriggerOk now kw then
          (true, addJob tbl1 job_id (.interval kw))
        else
          (false, tbl1)
    | none => (true, addJob tbl1 job_id (.date (now + 60)))

/-- Drop JSON-insignificant whitespace. -/
def jsonWs (l : List Char) : List Char :=
  l.dropWhile (fun c => c = ' ' || c = Char.ofNat 9 || c = Char.ofNat 10 || c = Char.ofNat 13)

/-- Hexadecimal digit test for JSON `\uXXXX` escapes. -/
def isHexDigit (c : Char) : Bool :=
  isPyDigit c || (65 ≤ c.toNat && c.toNat ≤ 70) || (97 ≤ c.toNat && c.toNat ≤ 102)

/-- Consume a JSON string literal after its opening quote; returns the input
remaining after the closing quote, `none` on a syntax error (strict JSON
escapes, as `json.loads` enforces). -/
def jsonStringRest : Nat → List Char → Option (List Char)
  | 0, _ => none
  | _ + 1, [] => none
  | fuel + 1, c :: cs =>
      if c = dquoteC then some cs
      else if c = bslashC then
        match cs with
        | [] => none
        | e :: cs' =>
            if e = 'u' then
              match cs' with
              | a :: b :: c2 :: d :: rest =>
                  if isHexDigit a && isHexDigit b && isHexDigit c2 && isHexDigit d then
                    jsonStringRest fuel rest
                  else none
              | _ => none
            else if e = dquoteC || e = bslashC || e = '/' || e = 'b' || e = 'f' ||
                e = 'n' || e = 'r' || e = 't' then
              jsonStringRest fuel cs'
            else none
      else if c.toNat < 32 then none
      else jsonStringRest fuel cs

/-- Consume a JSON number (`-? (0 | [1-9][0-9]*) frac? exp?`) or the
`Infinity`/`-Infinity` constants `json.loads` accepts by default; returns
the remaining input, `none` when neither starts here. -/
def jsonNumberRest (l : List Char) : Option (List Char) :=
  let l1 := match l with | '-' :: r => r | _ => l
  match l1 with
  | [] => none
  | c :: r =>
      if c = 'I' then
        if ("nfinity".data).isPrefixOf r then some (r.drop 7) else none
      else if !isPyDigit c then none
      else
        let afterInt := if c = '0' then r else r.dropWhile isPyDigit
        let afterFrac : Option (List Char) :=
          match afterInt with
          | '.' :: fr =>
              match fr with
              | f :: _ => if isPyDigit f then some (fr.dropWhile isPyDigit) else none
              | [] => none
          | _ => some afterInt
        match afterFrac with
        | none => none
        | some a2 =>
            match a2 with
            | 'e' :: er =>
                let er2 := match er with | '+' :: x => x | '-' :: x => x | x => x
                match er2 with
                | d :: _ => if isPyDigit d then some (er2.dropWhile isPyDigit) else none
                | [] => none
            | 'E' :: er =>
                let er2 := match er with | '+' :: x => x | '-' :: x => x | x => x
                match er2 with
                | d :: _ => if isPyDigit d then some (er2.dropWhile isPyDigit) else none
                | [] => none
            | _ => some a2

mutual

/-- Consume one JSON value; returns the remaining input, `none` on error. -/
def jsonValueRest : Nat → List Char → Option (List Char)
  | 0, _ => none
  | fuel + 1, l =>
      match jsonWs l with
      | [] => none
      | c :: cs =>
          if c = dquoteC then jsonStringRest (cs.length + 1) cs
          else if c = lbraceC then
            match jsonWs cs with
            | c2 :: r => if c2 = rbraceC then some r else jsonMembersRest fuel (c2 :: r)
            | [] => none
          else if c = lbrackC then
            match jsonWs cs with
            | c2 :: r => if c2 = rbrackC then some r else jsonElementsRest fuel (c2 :: r)
            | [] => none
          else if c = 't' then
            if ("rue".data).isPrefixOf cs then some (cs.drop 3) else none
          else if c = 'f' then
            if ("alse".data).isPrefixOf cs then some (cs.drop 4) else none
          else if c = 'n' then
            if ("ull".data).isPrefixOf cs then some (cs.drop 3) else none
          else if c = 'N' then
            if ("aN".data).isPrefixOf cs then some (cs.drop 2) else none
          else jsonNumberRest (c :: cs)

/-- Consume the members of a JSON object after a non-`}` opening. -/
def jsonMembersRest : Nat → List Char → Option (List Char)
  | 0, _ => none
  | fuel + 1, l =>
      match jsonWs l with
      | c :: cs =>
          if c = dquoteC then
            match jsonStringRest (cs.length + 1) cs with
            | none => none
            | some r1 =>
                match jsonWs r1 with
                | ':' :: r2 =>
                    match jsonValueRest fuel r2 with
                    | none => none
                    | some r3 =>
                        match jsonWs r3 with
                        | ',' :: r4 => jsonMembersRest fuel r4
                        | c4 :: r4 => if c4 = rbraceC then some r4 else none
                        | [] => none
                | _ => none
          else none
      | [] => none

/-- Consume the elements of a JSON array after a non-`]` opening. -/
def jsonElementsRest : Nat → List Char → Option (List Char)
  | 0, _ => none
  | fuel + 1, l =>
      match jsonValueRest fuel l with
      | none => none
      | some r =>
          match jsonWs r with
          | ',' :: r2 => jsonElementsRest fuel r2
          | c2 :: r2 => if c2 = rbrackC then some r2 else none
          | [] => none

end

/-- Whether `json.loads(s)` succeeds: one JSON value consuming the whole
input up to trailing whitespace. -/
def jsonOk (s : String) : Bool :=
  match jsonValueRest (s.data.length + 1) s.data with
  | some rest => (jsonWs rest).isEmpty
  | none => false

/-- `src/telegram_listener.py`, `restore_saved_reminders_from_db`
(lines 277-289).  `rows` is the result of
`SELECT id, params_json, schedule_rule FROM task WHERE enabled=1`
(`schedule_rule` is nullable, hence `Option String`; `rule or ""` is
`Option.getD ""`).  The `try/except` wraps the whole loop, so the first row
whose `params_json` fails `json.loads` (modelled by `jsonOk`) aborts the
remaining restoration; `schedule_job_for_task` itself never raises. -/
def restore_saved_reminders_from_db (now : Int) (tbl : JobTable)
    (rows : List (Nat × String × Option String)) : JobTable :=
  match rows with
  | [] => tbl
  | (tid, params_json, rule) :: rest =>
      if jsonOk params_json then
        restore_saved_reminders_from_db now
          (schedule_job_for_task now tbl tid (rule.getD "")).2 rest
      else tbl

/-- The trigger `schedule_job_for_task now _ _ rule` installs, read off the
branch structure of lines 177-197; `none` when `IntervalTrigger`
construction overflows and the `except` returns `False` with nothing
installed. -/
def installedTriggerOpt (now : Int) (rule : String) : Option PyTrigger :=
  if containsSub ("FREQ=ONCE".data) rule.data then some (.date (now + 60))
  else
    match parse_rrule_to_interval_kwargs rule with
    | some (.cron d h m) => some (.cron d h m)
    | some (.kwargs kw) =>
        if intervalTriggerOk now kw then some (.interval kw) else none
    | none => some (.date (now + 60))

/-- Whether scheduling this rule at this time avoids the one fallible
branch: if the rule resolves to interval kwargs, their `IntervalTrigger`
must construct without overflow. -/
def ruleOverflowSafe (now : Int) (rule : String) : Bool :=
  match parse_rrule_to_interval_kwargs rule with
  | some (.kwargs kw) => intervalTriggerOk now kw
  | _ => true

/-- Whether the list has two adjacent `R` characters (the only way the
pattern `RRULE:` can occur); a proof helper. -/
def hasRR : List Char → Bool
  | a :: b :: rest => (a == 'R' && b == 'R') || hasRR (b :: rest)
  | _ => false

/-- The frequency value looked up by `parse_rrule_to_interval_kwargs`
line 129: `parts.get("FREQ", "MINUTELY")` read off the rule string. -/
def freqOfRule (s : List Char) : List Char :=
  (dictGet (partsOfRule s) ("FREQ".data)).getD ("MINUTELY".data)

/-- The claim's family of well-formed interval rules `FREQ=X;INTERVAL=n`. -/
def mkIntervalRule (X : String) (n : Nat) : String :=
  "RRULE:FREQ=" ++ X ++ ";INTERVAL=" ++ pyStrNat n

/-- "`n` units of `X`" for the five interval frequencies, as the claim
states the expected period. -/
def freqKw (X : String) (n : Int) : IntervalKW :=
  if X = "SECONDLY" then .seconds n
  else if X = "MINUTELY" then .minutes n
  else if X = "HOURLY" then .hours n
  else if X = "DAILY" then .days n
  else .weeks n

theorem removeJob_idem (tbl : JobTable) (id : String) :
    removeJob (removeJob tbl id) id = removeJob tbl id := by
  induction tbl with
  | nil => rfl
  | cons e rest ih =>
      obtain ⟨i, t⟩ := e
      by_cases h : i = id
      · simp [removeJob, h, ih]
      · simp [removeJob, h, ih]

theorem getJob_removeJob_self (tbl : JobTable) (id : String) :
    getJob (removeJob tbl id) id = none := by
  induction tbl with
  | nil => rfl
  | cons e rest ih =>
      obtain ⟨i, t⟩ := e
      by_cases h : i = id
      · simp [removeJob, h, ih]
      · simp [removeJob, getJob, h, ih]

theorem getJob_append_right (l l' : List (String × PyTrigger)) (id : String)
    (h : getJob l id = none) : getJob (l ++ l') id = getJob l' id := by
  induction l with
  | nil => rfl
  | cons e rest ih =>
      obtain ⟨i, t⟩ := e
      by_cases hi : i = id
      · simp [getJob, hi] at h
      · simp [getJob, hi] at h ⊢
        exact ih h

theorem getJob_addJob_self (tbl : JobTable) (id : String) (t : PyTrigger) :
    getJob (addJob tbl id t) id = some t := by
  rw [addJob, getJob_append_right _ _ _ (getJob_removeJob_self tbl id)]
  simp [getJob]

theorem removeJob_of_getJob_none (tbl : JobTable) (id : String)
    (h : getJob tbl id = none) : removeJob tbl id = tbl := by
  induction tbl with
  | nil => rfl
  | cons e rest ih =>
      obtain ⟨i, t⟩ := e
      by_cases hi : i = id
      · simp [getJob, hi] at h
      · simp [getJob, hi] at h
        simp [removeJob, hi, ih h]

theorem getJob_removeJob_ne (tbl : JobTable) (id id' : String) (h : ¬ id' = id) :
    getJob (removeJob tbl id) id' = getJob tbl id' := by
  induction tbl with
  | nil => rfl
  | cons e rest ih =>
      obtain ⟨i, t⟩ := e
      by_cases hi : i = id
      · have hne : ¬ i = id' := fun hc => h (hc ▸ hi)
        simp only [removeJob, if_pos hi, getJob, if_neg hne, ih]
      · by_cases hi' : i = id'
        · simp only [removeJob, if_neg hi, getJob, if_pos hi']
        · simp only [removeJob, if_neg hi, getJob, if_neg hi', ih]

theorem getJob_append_some (l l' : List (String × PyTrigger)) (id : String)
    (v : PyTrigger) (h : getJob l id = some v) : getJob (l ++ l') id = some v := by
  induction l with
  | nil => simp [getJob] at h
  | cons e rest ih =>
      obtain ⟨i, t⟩ := e
      by_cases hi : i = id
      · simp only [getJob, if_pos hi] at h ⊢
        simpa using h
      · simp only [getJob, if_neg hi] at h ⊢
        exact ih h

theorem getJob_addJob_ne (tbl : JobTable) (id id' : String) (t : PyTrigger)
    (h : ¬ id' = id) : getJob (addJob tbl id t) id' = getJob tbl id' := by
  rw [addJob]
  cases hA : getJob (removeJob tbl id) id' with
  | none =>
      rw [getJob_append_right _ _ _ hA, ← getJob_removeJob_ne tbl id id' h, hA]
      simp only [getJob, if_neg (fun hc : id = id' => h hc.symm)]
  | some v =>
      rw [getJob_append_some _ _ _ _ hA, ← getJob_removeJob_ne tbl id id' h, hA]

theorem countId_append (l l' : List (String × PyTrigger)) (id : String) :
    countId (l ++ l') id = countId l id + countId l' id := by
  induction l with
  | nil => simp [countId]
  | cons e rest ih =>
      obtain ⟨i, t⟩ := e
      simp [countId, ih]
      omega

theorem countId_removeJob_self (tbl : JobTable) (id : String) :
    countId (removeJob tbl id) id = 0 := by
  induction tbl with
  | nil => rfl
  | cons e rest ih =>
      obtain ⟨i, t⟩ := e
      by_cases h : i = id
      · simp [removeJob, h, ih]
      · simp [removeJob, countId, h, ih]

theorem countId_addJob_self (tbl : JobTable) (id : String) (t : PyTrigger) :
    countId (addJob tbl id t) id = 1 := by
  rw [addJob, countId_append, countId_removeJob_self]
  simp [countId]

theorem length_addJob_of_fresh (tbl : JobTable) (id : String) (t : PyTrigger)
    (h : getJob tbl id = none) : (addJob tbl id t).length = tbl.length + 1 := by
  rw [addJob, removeJob_of_getJob_none tbl id h]
  simp

/-- `schedule_job_for_task`'s whole effect: one `add_job(...,
replace_existing=True)` with the installed trigger when one is
constructed, else (the `IntervalTrigger` overflow case) `False` with the
previous job removed and nothing installed. -/
theorem schedule_job_eq (now : Int) (tbl : JobTable) (task_id : Nat)
    (rule : String) :
    schedule_job_for_task now tbl task_id rule =
      match installedTriggerOpt now rule with
      | some t => (true, addJob tbl (jobId task_id) t)
      | none => (false, removeJob tbl (jobId task_id)) := by
  have hbase :
      ∀ trig, addJob (match getJob tbl (jobId task_id) with
        | some _ => removeJob tbl (jobId task_id)
        | none => tbl) (jobId task_id) trig = addJob tbl (jobId task_id) trig := by
    intro trig
    cases hg : getJob tbl (jobId task_id) with
    | none => simp
    | some t => simp [addJob, removeJob_idem]
  have hrm : (match getJob tbl (jobId task_id) with
      | some _ => removeJob tbl (jobId task_id)
      | none => tbl) = removeJob tbl (jobId task_id) := by
    cases hg : getJob tbl (jobId task_id) with
    | none => exact (removeJob_of_getJob_none tbl _ hg).symm
    | some t => rfl
  rw [schedule_job_for_task, installedTriggerOpt]
  by_cases honce : containsSub ("FREQ=ONCE".data) rule.data
  · simp only [honce, if_pos, hbase]
  · simp only [honce, if_neg, Bool.false_eq_true, not_false_eq_true]
    cases hp : parse_rrule_to_interval_kwargs rule with
    | none => simp [hbase]
    | some r =>
        cases r with
        | cron d h m => simp [hbase]
        | kwargs kw =>
            by_cases hok : intervalTriggerOk now kw = true
            · simp [hok, hbase]
            · simp only [Bool.not_eq_true] at hok
              simp [hok, hrm]

theorem schedule_job_eq_of_some (now : Int) (tbl : JobTable) (task_id : Nat)
    (rule : String) (t : PyTrigger)
    (h : installedTriggerOpt now rule = some t) :
    schedule_job_for_task now tbl task_id rule =
      (true, addJob tbl (jobId task_id) t) := by
  rw [schedule_job_eq, h]

theorem installedTriggerOpt_of_safe (now : Int) (rule : String)
    (h : ruleOverflowSafe now rule = true) :
    ∃ t, installedTriggerOpt now rule = some t := by
  rw [installedTriggerOpt]
  by_cases honce : containsSub ("FREQ=ONCE".data) rule.data = true
  · rw [if_pos honce]
    exact ⟨_, rfl⟩
  · rw [if_neg honce]
    cases hp : parse_rrule_to_interval_kwargs rule with
    | none => exact ⟨_, rfl⟩
    | some r =>
        cases r with
        | cron d hh mm => exact ⟨_, rfl⟩
        | kwargs kw =>
            simp only [ruleOverflowSafe, hp] at h
            refine ⟨.interval kw, ?_⟩
            show (if intervalTriggerOk now kw = true then
                some (PyTrigger.interval kw) else none) = some (.interval kw)
            rw [if_pos h]

theorem digitChar_isPyDigit (d : Nat) (h : d < 10) :
    isPyDigit (Nat.digitChar d) = true := by
  interval_cases d <;> rfl

theorem natDigitsAux_digits (fuel : Nat) :
    ∀ n, ∀ c ∈ natDigitsAux fuel n, isPyDigit c = true := by
  induction fuel with
  | zero => intro n c hc; simp [natDigitsAux] at hc
  | succ fuel ih =>
      intro n c hc
      cases n with
      | zero => simp [natDigitsAux] at hc
      | succ m =>
          simp only [natDigitsAux, List.mem_append, List.mem_singleton] at hc
          rcases hc with hc | hc
          · exact ih _ c hc
          · exact hc ▸ digitChar_isPyDigit _ (Nat.mod_lt _ (by omega))

theorem natDigitsAux_foldl (fuel : Nat) :
    ∀ n, n ≤ fuel → ∀ acc : Nat,
      List.foldl (fun a c => 10 * a + (c.toNat - 48)) acc (natDigitsAux fuel n) =
        acc * 10 ^ (natDigitsAux fuel n).length + n := by
  induction fuel with
  | zero =>
      intro n hn acc
      interval_cases n
      simp [natDigitsAux]
  | succ fuel ih =>
      intro n hn acc
      cases n with
      | zero => simp [natDigitsAux]
      | succ m =>
          have hdiv : (m + 1) / 10 ≤ fuel := by
            have := Nat.div_lt_self (Nat.succ_pos m) (by omega : 1 < 10)
            omega
          have hchar : (Nat.digitChar ((m + 1) % 10)).toNat - 48 = (m + 1) % 10 := by
            have hlt : (m + 1) % 10 < 10 := Nat.mod_lt _ (by omega)
            have : (Nat.digitChar ((m + 1) % 10)).toNat = 48 + (m + 1) % 10 := by
              set d := (m + 1) % 10 with hd
              interval_cases d <;> rfl
            omega
          simp only [natDigitsAux, List.foldl_append, List.foldl_cons, List.foldl_nil,
            List.length_append, List.length_cons, List.length_nil]
          rw [ih _ hdiv acc, hchar]
          have := Nat.div_add_mod (m + 1) 10
          ring_nf
          omega

theorem digitsValNat_natDigitsAux (n : Nat) :
    digitsValNat (natDigitsAux n n) = n := by
  rw [digitsValNat, natDigitsAux_foldl n n (le_refl n) 0]
  simp

theorem natDigitsAux_ne_nil (fuel n : Nat) (hn : 0 < n) (hf : 0 < fuel) :
    natDigitsAux fuel n ≠ [] := by
  cases fuel with
  | zero => omega
  | succ f =>
      cases n with
      | zero => omega
      | succ m => simp [natDigitsAux]

theorem isPyDigit_toNat (c : Char) (h : isPyDigit c = true) :
    48 ≤ c.toNat ∧ c.toNat ≤ 57 := by
  simp only [isPyDigit, Bool.and_eq_true, decide_eq_true_eq] at h
  exact h

theorem isPyDigit_not_space (c : Char) (h : isPyDigit c = true) :
    isPySpace c = false := by
  obtain ⟨h1, h2⟩ := isPyDigit_toNat c h
  simp only [isPySpace, Bool.or_eq_false_iff, decide_eq_false_iff_not]
  refine ⟨⟨⟨⟨⟨?_, ?_⟩, ?_⟩, ?_⟩, ?_⟩, ?_⟩ <;>
    (intro hc; rw [hc] at h1 h2; simp at h1 h2)

theorem dropWhile_eq_self_of_false {p : Char → Bool} {l : List Char}
    (h : ∀ c ∈ l, p c = false) : l.dropWhile p = l := by
  cases l with
  | nil => rfl
  | cons c cs => simp [List.dropWhile_cons, h c (List.mem_cons_self c cs)]

theorem pyStrip_eq_self {l : List Char} (h : ∀ c ∈ l, isPySpace c = false) :
    pyStrip l = l := by
  rw [pyStrip, dropWhile_eq_self_of_false h,
    dropWhile_eq_self_of_false (fun c hc => h c (List.mem_reverse.mp hc)),
    List.reverse_reverse]

theorem pyInt_of_digits (l : List Char) (h1 : l ≠ [])
    (h2 : ∀ c ∈ l, isPyDigit c = true) :
    pyInt l = some ((digitsValNat l : Nat) : Int) := by
  have hstrip : pyStrip l = l :=
    pyStrip_eq_self (fun c hc => isPyDigit_not_space c (h2 c hc))
  have hall : l.all isPyDigit = true := List.all_eq_true.mpr h2
  cases l with
  | nil => exact absurd rfl h1
  | cons c cs =>
      have hc := h2 c (List.mem_cons_self c cs)
      obtain ⟨hlo, hhi⟩ := isPyDigit_toNat c hc
      have hplus : ¬ c = '+' := by intro hcc; rw [hcc] at hlo; simp at hlo
      have hminus : ¬ c = '-' := by intro hcc; rw [hcc] at hlo; simp at hlo
      rw [pyInt, hstrip]
      split
      · rename_i heq
        exact absurd (List.head_eq_of_cons_eq heq.symm).symm hplus
      · rename_i heq
        exact absurd (List.head_eq_of_cons_eq heq.symm).symm hminus
      · simp [hall]

theorem pyInt_pyStrNat (n : Nat) : pyInt (pyStrNat n).data = some (n : Int) := by
  by_cases h : n = 0
  · subst h; rfl
  · rw [pyStrNat, if_neg h]
    have := pyInt_of_digits (natDigitsAux n n)
      (natDigitsAux_ne_nil n n (by omega) (by omega))
      (natDigitsAux_digits n n)
    rw [show (String.mk (natDigitsAux n n)).data = natDigitsAux n n from rfl, this,
      digitsValNat_natDigitsAux]

theorem pyStrNat_inj (a b : Nat) (h : pyStrNat a = pyStrNat b) : a = b := by
  have ha := pyInt_pyStrNat a
  have hb := pyInt_pyStrNat b
  rw [h, hb] at ha
  exact (by exact_mod_cast Option.some_injective _ ha : b = a).symm

theorem jobId_inj (a b : Nat) (h : jobId a = jobId b) : a = b := by
  apply pyStrNat_inj
  have hd : ("reminder-" ++ pyStrNat a).data = ("reminder-" ++ pyStrNat b).data := by
    rw [← jobId, ← jobId, h]
  rw [String.data_append, String.data_append] at hd
  have hcancel := List.append_cancel_left hd
  cases hA : pyStrNat a with
  | mk la =>
      cases hB : pyStrNat b with
      | mk lb =>
          rw [hA, hB] at hcancel
          simp only at hcancel
          rw [hcancel]

theorem isPrefixOf_append_self (l t : List Char) : l.isPrefixOf (l ++ t) = true := by
  induction l with
  | nil => simp [List.isPrefixOf]
  | cons c cs ih => simp [List.isPrefixOf, ih]

theorem hasRR_tail (a : Char) (l : List Char) (h : hasRR (a :: l) = false) :
    hasRR l = false := by
  cases l with
  | nil => rfl
  | cons b t =>
      simp only [hasRR, Bool.or_eq_false_iff] at h
      exact h.2

theorem isPrefixOf_RR_shape (p' : List Char) (c : Char) (cs : List Char)
    (h : ('R' :: 'R' :: p').isPrefixOf (c :: cs) = true) :
    c = 'R' ∧ ∃ bs, cs = 'R' :: bs := by
  cases cs with
  | nil => simp [List.isPrefixOf] at h
  | cons b bs =>
      simp only [List.isPrefixOf, Bool.and_eq_true, beq_iff_eq] at h
      have hb : b = 'R' := h.2.1.symm
      exact ⟨h.1.symm, bs, by rw [hb]⟩

theorem replaceAllAux_no_RR (pat rep p' : List Char) (hp : pat = 'R' :: 'R' :: p') :
    ∀ fuel l, hasRR l = false → replaceAllAux pat rep fuel l = l := by
  intro fuel
  induction fuel with
  | zero => intro l h; cases l <;> rfl
  | succ fuel ih =>
      intro l h
      cases l with
      | nil => rfl
      | cons c cs =>
          have hpre : ¬ (pat.isPrefixOf (c :: cs) = true) := by
            rw [hp]
            intro hcon
            obtain ⟨hc, bs, hbs⟩ := isPrefixOf_RR_shape p' c cs hcon
            subst hc
            subst hbs
            simp [hasRR] at h
          have hstep : replaceAllAux pat rep (fuel + 1) (c :: cs) =
              c :: replaceAllAux pat rep fuel cs := by
            simp only [replaceAllAux, if_neg hpre]
          rw [hstep, ih cs (hasRR_tail c cs h)]

theorem replaceAll_strip_prefix (body : List Char) (h : hasRR body = false) :
    replaceAll ("RRULE:".data) [] ("RRULE:".data ++ body) = body := by
  have hlen : ("RRULE:".data ++ body).length = body.length + 5 + 1 := by
    simp
  rw [replaceAll, hlen]
  show replaceAllAux ("RRULE:".data) [] (body.length + 5 + 1)
      ('R' :: 'R' :: 'U' :: 'L' :: 'E' :: ':' :: body) = body
  rw [replaceAllAux,
    if_pos (show ("RRULE:".data).isPrefixOf
        ('R' :: 'R' :: 'U' :: 'L' :: 'E' :: ':' :: body) = true from
      isPrefixOf_append_self ("RRULE:".data) body)]
  show [] ++ replaceAllAux ("RRULE:".data) [] (body.length + 5) body = body
  rw [List.nil_append]
  exact replaceAllAux_no_RR _ [] _ rfl _ body h

theorem hasRR_of_noR (l : List Char) (h : ∀ c ∈ l, ¬ c = 'R') : hasRR l = false := by
  induction l with
  | nil => rfl
  | cons a t ih =>
      cases t with
      | nil => rfl
      | cons b r =>
          simp only [hasRR, Bool.or_eq_false_iff]
          refine ⟨?_, ih (fun c hc => h c (List.mem_cons_of_mem a hc))⟩
          have ha := h a (List.mem_cons_self a _)
          simp [ha]

theorem hasRR_append_noR (l1 l2 : List Char) (h1 : hasRR l1 = false)
    (h2 : ∀ c ∈ l2, ¬ c = 'R') : hasRR (l1 ++ l2) = false := by
  induction l1 with
  | nil => exact hasRR_of_noR l2 h2
  | cons a t ih =>
      cases t with
      | nil =>
          cases l2 with
          | nil => rfl
          | cons b r =>
              simp only [List.cons_append, List.nil_append, hasRR,
                Bool.or_eq_false_iff]
              refine ⟨?_, hasRR_of_noR (b :: r) h2⟩
              have hb := h2 b (List.mem_cons_self b r)
              simp [hb]
      | cons b r =>
          simp only [List.cons_append, hasRR, Bool.or_eq_false_iff] at h1 ⊢
          refine ⟨h1.1, ?_⟩
          have := ih h1.2
          simpa using this

theorem splitOnChar_no_sep (sep : Char) (l : List Char)
    (h : ∀ c ∈ l, ¬ c = sep) : splitOnChar sep l = [l] := by
  induction l with
  | nil => rfl
  | cons c cs ih =>
      have hc := h c (List.mem_cons_self c cs)
      have ihr := ih (fun x hx => h x (List.mem_cons_of_mem c hx))
      simp [splitOnChar, hc, ihr]

theorem splitOnChar_append_sep (sep : Char) (l1 l2 : List Char)
    (h : ∀ c ∈ l1, ¬ c = sep) :
    splitOnChar sep (l1 ++ sep :: l2) = l1 :: splitOnChar sep l2 := by
  induction l1 with
  | nil => simp [splitOnChar]
  | cons c cs ih =>
      have hc := h c (List.mem_cons_self c cs)
      have ihr := ih (fun x hx => h x (List.mem_cons_of_mem c hx))
      simp [splitOnChar, hc, ihr]

theorem splitFirst_append (sep : Char) (k v : List Char)
    (h : ∀ c ∈ k, ¬ c = sep) :
    splitFirst sep (k ++ sep :: v) = some (k, v) := by
  induction k with
  | nil => simp [splitFirst]
  | cons c cs ih =>
      have hc := h c (List.mem_cons_self c cs)
      have ihr := ih (fun x hx => h x (List.mem_cons_of_mem c hx))
      simp [splitFirst, hc, ihr]

theorem pyUpperChar_digit (c : Char) (h : isPyDigit c = true) : pyUpperChar c = c := by
  obtain ⟨h1, h2⟩ := isPyDigit_toNat c h
  rw [pyUpperChar, if_neg]
  simp only [Bool.and_eq_true, decide_eq_true_eq, not_and]
  omega

theorem pyUpper_of_digits (l : List Char) (h : ∀ c ∈ l, isPyDigit c = true) :
    pyUpper l = l := by
  induction l with
  | nil => rfl
  | cons c cs ih =>
      simp only [pyUpper, List.map_cons]
      rw [pyUpperChar_digit c (h c (List.mem_cons_self c cs))]
      have := ih (fun x hx => h x (List.mem_cons_of_mem c hx))
      simp only [pyUpper] at this
      rw [this]

theorem isPyDigit_ne_semi (c : Char) (h : isPyDigit c = true) : ¬ c = ';' := by
  intro hc
  rw [hc] at h
  exact absurd h (by decide)

theorem isPyDigit_ne_R (c : Char) (h : isPyDigit c = true) : ¬ c = 'R' := by
  intro hc
  rw [hc] at h
  exact absurd h (by decide)

theorem parseL_append_body (body : List Char) (h : hasRR body = false) :
    parseL ("RRULE:".data ++ body) = parseFromParts (partsOfBody body) := by
  have hguard : (("RRULE:".data ++ body).isEmpty
      || !(("RRULE:".data).isPrefixOf ("RRULE:".data ++ body))) = false := by
    rw [isPrefixOf_append_self]
    rfl
  rw [parseL, hguard]
  simp only [Bool.false_eq_true, if_false]
  rw [partsOfRule, replaceAll_strip_prefix body h]

theorem partsOfBody_freq_interval (fv D : List Char)
    (hsemi : ∀ c ∈ fv, ¬ c = ';')
    (hstrip : pyStrip fv = fv) (hup : pyUpper fv = fv)
    (hD : ∀ c ∈ D, isPyDigit c = true) :
    partsOfBody ("FREQ=".data ++ fv ++ ';' :: ("INTERVAL=".data ++ D)) =
      [("FREQ".data, fv), ("INTERVAL".data, D)] := by
  have hfv1 : ∀ c ∈ "FREQ=".data ++ fv, ¬ c = ';' := by
    intro c hc
    rcases List.mem_append.mp hc with hc | hc
    · exact (by decide : ∀ c ∈ "FREQ=".data, ¬ c = ';') c hc
    · exact hsemi c hc
  have hfv2 : ∀ c ∈ "INTERVAL=".data ++ D, ¬ c = ';' := by
    intro c hc
    rcases List.mem_append.mp hc with hc | hc
    · exact (by decide : ∀ c ∈ "INTERVAL=".data, ¬ c = ';') c hc
    · exact isPyDigit_ne_semi c (hD c hc)
  have hsplit : splitOnChar ';' ("FREQ=".data ++ fv ++ ';' :: ("INTERVAL=".data ++ D)) =
      ("FREQ=".data ++ fv) :: [("INTERVAL=".data ++ D)] := by
    rw [show "FREQ=".data ++ fv ++ ';' :: ("INTERVAL=".data ++ D) =
        ("FREQ=".data ++ fv) ++ ';' :: ("INTERVAL=".data ++ D) from by
      rw [List.append_assoc]]
    rw [splitOnChar_append_sep ';' _ _ hfv1, splitOnChar_no_sep ';' _ hfv2]
  rw [partsOfBody, hsplit]
  simp only [List.foldl_cons, List.foldl_nil]
  rw [show ("FREQ=".data ++ fv) = "FREQ".data ++ '=' :: fv from rfl]
  rw [splitFirst_append '=' _ _ (by decide)]
  rw [show ("INTERVAL=".data ++ D) = "INTERVAL".data ++ '=' :: D from rfl]
  rw [splitFirst_append '=' _ _ (by decide)]
  simp only
  have hDstrip : pyStrip D = D :=
    pyStrip_eq_self (fun c hc => isPyDigit_not_space c (hD c hc))
  have hDup : pyUpper D = D := pyUpper_of_digits D hD
  rw [show pyStrip ("FREQ".data) = "FREQ".data from by decide,
    show pyUpper ("FREQ".data) = "FREQ".data from by decide,
    hstrip, hup,
    show pyStrip ("INTERVAL".data) = "INTERVAL".data from by decide,
    show pyUpper ("INTERVAL".data) = "INTERVAL".data from by decide,
    hDstrip, hDup]
  rw [show dictInsert [] ("FREQ".data) fv = [("FREQ".data, fv)] from rfl]
  rw [dictInsert, if_neg (by decide), dictInsert]

theorem parseFromParts_freq_interval (fv D : List Char)
    (hDne : D ≠ []) (hD : ∀ c ∈ D, isPyDigit c = true) :
    parseFromParts [("FREQ".data, fv), ("INTERVAL".data, D)] =
      (freqMapping fv ((digitsValNat D : Nat) : Int)).map .kwargs := by
  have hInt : intervalOfParts [("FREQ".data, fv), ("INTERVAL".data, D)] =
      some ((digitsValNat D : Nat) : Int) := by
    rw [intervalOfParts]
    rw [show dictGet [("FREQ".data, fv), ("INTERVAL".data, D)] ("INTERVAL".data) =
        some D from by
      rw [dictGet, if_neg (by decide), dictGet, if_pos rfl]]
    exact pyInt_of_digits D hDne hD
  have hBH : dictGet [("FREQ".data, fv), ("INTERVAL".data, D)] ("BYHOUR".data) = none := by
    rw [dictGet, if_neg (by decide), dictGet, if_neg (by decide), dictGet]
  have hBM : dictGet [("FREQ".data, fv), ("INTERVAL".data, D)] ("BYMINUTE".data) = none := by
    rw [dictGet, if_neg (by decide), dictGet, if_neg (by decide), dictGet]
  have hBD : dictGet [("FREQ".data, fv), ("INTERVAL".data, D)] ("BYDAY".data) = none := by
    rw [dictGet, if_neg (by decide), dictGet, if_neg (by decide), dictGet]
  have hF : dictGet [("FREQ".data, fv), ("INTERVAL".data, D)] ("FREQ".data) = some fv := by
    rw [dictGet, if_pos rfl]
  rw [parseFromParts]
  simp only [hInt, hBH, hBM, hBD, hF, truthyOpt, Bool.or_self, Bool.false_eq_true,
    if_false, Option.getD_some]

theorem parseL_interval (fv D : List Char)
    (hsemi : ∀ c ∈ fv, ¬ c = ';')
    (hstrip : pyStrip fv = fv) (hup : pyUpper fv = fv)
    (hDne : D ≠ []) (hD : ∀ c ∈ D, isPyDigit c = true)
    (hRR : hasRR ("FREQ=".data ++ fv ++ ';' :: ("INTERVAL=".data ++ D)) = false) :
    parseL ("RRULE:".data ++ ("FREQ=".data ++ fv ++ ';' :: ("INTERVAL=".data ++ D))) =
      (freqMapping fv ((digitsValNat D : Nat) : Int)).map .kwargs := by
  rw [parseL_append_body _ hRR, partsOfBody_freq_interval fv D hsemi hstrip hup hD,
    parseFromParts_freq_interval fv D hDne hD]

theorem hasRR_body_digits (fvS : String) (n : Nat)
    (h : hasRR ("FREQ=".data ++ fvS.data ++ ';' :: "INTERVAL=".data) = false) :
    hasRR ("FREQ=".data ++ fvS.data ++ ';' :: ("INTERVAL=".data ++ natDigitsAux n n))
      = false := by
  have := hasRR_append_noR ("FREQ=".data ++ fvS.data ++ ';' :: "INTERVAL=".data)
    (natDigitsAux n n) h
    (fun c hc => isPyDigit_ne_R c (natDigitsAux_digits n n c hc))
  simpa [List.append_assoc] using this

theorem c4_case (fvS : String) (n : Nat) (hn : 0 < n)
    (h1 : ∀ c ∈ fvS.data, ¬ c = ';')
    (h2 : pyStrip fvS.data = fvS.data) (h3 : pyUpper fvS.data = fvS.data)
    (h4 : hasRR ("FREQ=".data ++ fvS.data ++ ';' :: "INTERVAL=".data) = false) :
    parse_rrule_to_interval_kwargs (mkIntervalRule fvS n) =
      (freqMapping fvS.data (n : Int)).map .kwargs := by
  have hdata : (mkIntervalRule fvS n).data =
      "RRULE:".data ++
        ("FREQ=".data ++ fvS.data ++ ';' :: ("INTERVAL=".data ++ natDigitsAux n n)) := by
    rw [mkIntervalRule, pyStrNat, if_neg hn.ne']
    simp only [String.data_append]
    simp only [List.append_assoc]
    rfl
  rw [parse_rrule_to_interval_kwargs, hdata,
    parseL_interval fvS.data (natDigitsAux n n) h1 h2 h3
      (natDigitsAux_ne_nil n n hn hn) (natDigitsAux_digits n n)
      (hasRR_body_digits fvS n h4),
    digitsValNat_natDigitsAux]

/-- C4: for every well-formed interval rule `RRULE:FREQ=X;INTERVAL=n` with no
`BYHOUR`/`BYMINUTE`/`BYDAY` qualifier, for every `X` in
{SECONDLY, MINUTELY, HOURLY, DAILY, WEEKLY} and every positive integer `n`,
`parse_rrule_to_interval_kwargs` yields an interval specification whose
period is exactly `n` units of `X`. -/
theorem c4_interval_rules (X : String) (n : Nat)
    (hX : X ∈ ["SECONDLY", "MINUTELY", "HOURLY", "DAILY", "WEEKLY"])
    (hn : 0 < n) :
    parse_rrule_to_interval_kwargs (mkIntervalRule X n) =
      some (.kwargs (freqKw X (n : Int))) := by
  fin_cases hX
  · rw [c4_case "SECONDLY" n hn (by decide) (by decide) (by decide) (by decide)]
    rw [freqMapping, if_pos rfl, freqKw, if_pos rfl]
    rfl
  · rw [c4_case "MINUTELY" n hn (by decide) (by decide) (by decide) (by decide)]
    rw [freqMapping, if_neg (by decide), if_pos rfl, freqKw, if_neg (by decide),
      if_pos rfl]
    rfl
  · rw [c4_case "HOURLY" n hn (by decide) (by decide) (by decide) (by decide)]
    rw [freqMapping, if_neg (by decide), if_neg (by decide), if_pos rfl, freqKw,
      if_neg (by decide), if_neg (by decide), if_pos rfl]
    rfl
  · rw [c4_case "DAILY" n hn (by decide) (by decide) (by decide) (by decide)]
    rw [freqMapping, if_neg (by decide), if_neg (by decide), if_neg (by decide),
      if_pos rfl, freqKw, if_neg (by decide), if_neg (by decide),
      if_neg (by decide), if_pos rfl]
    rfl
  · rw [c4_case "WEEKLY" n hn (by decide) (by decide) (by decide) (by decide)]
    rw [freqMapping, if_neg (by decide), if_neg (by decide), if_neg (by decide),
      if_neg (by decide), if_pos rfl, freqKw, if_neg (by decide),
      if_neg (by decide), if_neg (by decide), if_neg (by decide)]
    rfl

/-- Witness for C4 at `X = "DAILY"`, `n = 3`. -/
theorem c4_interval_rules_witness :
    ("DAILY" : String) ∈ ["SECONDLY", "MINUTELY", "HOURLY", "DAILY", "WEEKLY"] ∧
    0 < 3 ∧
    parse_rrule_to_interval_kwargs (mkIntervalRule "DAILY" 3) =
      some (.kwargs (freqKw "DAILY" (3 : Int))) :=
  ⟨by decide, by decide, c4_interval_rules "DAILY" 3 (by decide) (by decide)⟩

/-- C6: a rule containing `FREQ=ONCE` is scheduled as a one-shot
`DateTrigger` at `now + 60` seconds, regardless of any `RUN_AT` timestamp
carried in the rule; afterwards exactly one job with that task's id is
live. -/
theorem c6_once_trigger (now : Int) (tbl : JobTable) (tid : Nat) (rule : String)
    (h : containsSub ("FREQ=ONCE".data) rule.data = true) :
    (schedule_job_for_task now tbl tid rule).1 = true ∧
    countId (schedule_job_for_task now tbl tid rule).2 (jobId tid) = 1 ∧
    getJob (schedule_job_for_task now tbl tid rule).2 (jobId tid) =
      some (.date (now + 60)) := by
  have ht : installedTriggerOpt now rule = some (.date (now + 60)) := by
    rw [installedTriggerOpt, if_pos h]
  have he := schedule_job_eq_of_some now tbl tid rule _ ht
  rw [he]
  exact ⟨rfl, countId_addJob_self _ _ _, getJob_addJob_self _ _ _⟩

/-- Witness for C6: a one-shot order rule with a literal `RUN_AT` timestamp
still fires at `now + 60`. -/
theorem c6_once_trigger_witness :
    containsSub ("FREQ=ONCE".data)
      ("RRULE:FREQ=ONCE;RUN_AT=2025-11-06T10:00:00+05:30" : String).data = true ∧
    getJob (schedule_job_for_task 1000 [] 7
        "RRULE:FREQ=ONCE;RUN_AT=2025-11-06T10:00:00+05:30").2 (jobId 7) =
      some (.date 1060) :=
  ⟨by decide,
   (c6_once_trigger 1000 [] 7 "RRULE:FREQ=ONCE;RUN_AT=2025-11-06T10:00:00+05:30"
      (by decide)).2.2⟩

/-- C7 counterexample: `RRULE:FREQ=DAILY;INTERVAL=1000000000` parses to an
interval of 10^9 days, `datetime.timedelta` overflows inside
`IntervalTrigger`, the `except` returns `False`, and ZERO live jobs remain
for the task — contradicting "never ... left unscheduled" / "always
exactly one live Job". -/
theorem c7_counterexample :
    parse_rrule_to_interval_kwargs "RRULE:FREQ=DAILY;INTERVAL=1000000000" =
      some (.kwargs (.days 1000000000)) ∧
    (schedule_job_for_task 0 [] 5 "RRULE:FREQ=DAILY;INTERVAL=1000000000").1 =
      false ∧
    countId (schedule_job_for_task 0 [] 5
      "RRULE:FREQ=DAILY;INTERVAL=1000000000").2 (jobId 5) = 0 := by
  refine ⟨?_, ?_, ?_⟩ <;> decide

/-- C7 (amended): `schedule_job_for_task` never raises; for every string
input whose resolution does not hit the `IntervalTrigger` overflow
(`ruleOverflowSafe`), it reports success and leaves exactly one live job
for the task id, and when no trigger can be resolved (the parser returns
`None` and the rule has no `FREQ=ONCE` token) that job is a `Once` trigger
at `now + 60` seconds.  When the resolved interval does overflow, the
`except` returns `False` and the task is left with zero live jobs. -/
theorem c7_total_coverage_amended (now : Int) (tbl : JobTable) (tid : Nat)
    (rule : String) (hsafe : ruleOverflowSafe now rule = true) :
    (schedule_job_for_task now tbl tid rule).1 = true ∧
    countId (schedule_job_for_task now tbl tid rule).2 (jobId tid) = 1 ∧
    ((containsSub ("FREQ=ONCE".data) rule.data = false ∧
        parse_rrule_to_interval_kwargs rule = none) →
      getJob (schedule_job_for_task now tbl tid rule).2 (jobId tid) =
        some (.date (now + 60))) := by
  obtain ⟨t, ht⟩ := installedTriggerOpt_of_safe now rule hsafe
  have he := schedule_job_eq_of_some now tbl tid rule t ht
  refine ⟨by rw [he], by rw [he]; exact countId_addJob_self _ _ _, ?_⟩
  rintro ⟨h1, h2⟩
  rw [installedTriggerOpt, if_neg (by simp [h1]), h2] at ht
  have ht' : t = .date (now + 60) := by
    simpa using ht.symm
  rw [he, ht']
  exact getJob_addJob_self _ _ _

/-- Witness for the amended C7 at a garbage rule string. -/
theorem c7_total_coverage_amended_witness :
    ruleOverflowSafe 0 "complete garbage" = true ∧
    countId (schedule_job_for_task 0 [] 5 "complete garbage").2 (jobId 5) = 1 ∧
    getJob (schedule_job_for_task 0 [] 5 "complete garbage").2 (jobId 5) =
      some (.date 60) :=
  ⟨by decide,
   (c7_total_coverage_amended 0 [] 5 "complete garbage" (by decide)).2.1,
   (c7_total_coverage_amended 0 [] 5 "complete garbage" (by decide)).2.2
     ⟨by decide, by decide⟩⟩

/-- C8 counterexample: a first successful schedule followed by a second
call whose rule hits the `IntervalTrigger` overflow: lines 162-164 remove
the existing job before the `try`, the construction fails, and ZERO live
jobs remain — not "exactly one live job carrying the trigger from the
second call". -/
theorem c8_counterexample :
    countId (schedule_job_for_task 0 [] 4 "RRULE:FREQ=MINUTELY;INTERVAL=1").2
      (jobId 4) = 1 ∧
    countId (schedule_job_for_task 0
      (schedule_job_for_task 0 [] 4 "RRULE:FREQ=MINUTELY;INTERVAL=1").2 4
      "RRULE:FREQ=DAILY;INTERVAL=1000000000").2 (jobId 4) = 0 := by
  refine ⟨?_, ?_⟩ <;> decide

/-- C8 (amended): when the second call's rule does not hit the
`IntervalTrigger` overflow (`ruleOverflowSafe`), scheduling the same task
id twice leaves exactly one live job for that id, identical to what the
second call installs on its own (the second call's trigger wins; the first
handle is discarded).  If the second call's rule overflows, the first job
is removed and nothing is installed: zero live jobs remain. -/
theorem c8_idempotent_replace_amended (now1 now2 : Int) (tbl : JobTable)
    (tid : Nat) (r1 r2 : String)
    (hsafe : ruleOverflowSafe now2 r2 = true) :
    countId (schedule_job_for_task now2
      (schedule_job_for_task now1 tbl tid r1).2 tid r2).2 (jobId tid) = 1 ∧
    getJob (schedule_job_for_task now2
      (schedule_job_for_task now1 tbl tid r1).2 tid r2).2 (jobId tid) =
      getJob (schedule_job_for_task now2 tbl tid r2).2 (jobId tid) := by
  obtain ⟨t, ht⟩ := installedTriggerOpt_of_safe now2 r2 hsafe
  rw [schedule_job_eq_of_some now2 _ tid r2 t ht,
    schedule_job_eq_of_some now2 tbl tid r2 t ht]
  exact ⟨countId_addJob_self _ _ _,
    by rw [getJob_addJob_self, getJob_addJob_self]⟩

/-- Witness for the amended C8: reschedule from a once rule to a 2-day
interval. -/
theorem c8_idempotent_replace_amended_witness :
    ruleOverflowSafe 0 "RRULE:FREQ=DAILY;INTERVAL=2" = true ∧
    countId (schedule_job_for_task 0
      (schedule_job_for_task 0 [] 6 "RRULE:FREQ=ONCE").2 6
      "RRULE:FREQ=DAILY;INTERVAL=2").2 (jobId 6) = 1 :=
  ⟨by decide,
   (c8_idempotent_replace_amended 0 0 [] 6 "RRULE:FREQ=ONCE"
      "RRULE:FREQ=DAILY;INTERVAL=2" (by decide)).1⟩

/-- C10: an empty rule string, or one that does not begin with `RRULE:`,
makes `parse_rrule_to_interval_kwargs` return `None`, and the caller then
installs the one-shot fallback at `now + 60` instead of any recurrence. -/
theorem c10_no_prefix_unparseable (s : String) (now : Int) (tbl : JobTable)
    (tid : Nat)
    (h : s = "" ∨ ("RRULE:".data).isPrefixOf s.data = false) :
    parse_rrule_to_interval_kwargs s = none ∧
    getJob (schedule_job_for_task now tbl tid s).2 (jobId tid) =
      some (.date (now + 60)) ∧
    countId (schedule_job_for_task now tbl tid s).2 (jobId tid) = 1 := by
  have hp : parse_rrule_to_interval_kwargs s = none := by
    rw [parse_rrule_to_interval_kwargs, parseL]
    rcases h with h | h
    · subst h
      rfl
    · rw [h]
      simp
  have htrig : installedTriggerOpt now s = some (.date (now + 60)) := by
    rw [installedTriggerOpt]
    by_cases honce : containsSub ("FREQ=ONCE".data) s.data = true
    · rw [if_pos honce]
    · rw [if_neg honce, hp]
  have he := schedule_job_eq_of_some now tbl tid s _ htrig
  exact ⟨hp, by rw [he]; exact getJob_addJob_self _ _ _,
    by rw [he]; exact countId_addJob_self _ _ _⟩

/-- Witness for C10: the prefix-less stored form `FREQ=DAILY;INTERVAL=2`
parses to nothing and is scheduled as the 60-second fallback. -/
theorem c10_no_prefix_unparseable_witness :
    parse_rrule_to_interval_kwargs "FREQ=DAILY;INTERVAL=2" = none ∧
    getJob (schedule_job_for_task 0 [] 9 "FREQ=DAILY;INTERVAL=2").2 (jobId 9) =
      some (.date 60) :=
  ⟨(c10_no_prefix_unparseable "FREQ=DAILY;INTERVAL=2" 0 [] 9 (Or.inr (by decide))).1,
   (c10_no_prefix_unparseable "FREQ=DAILY;INTERVAL=2" 0 [] 9 (Or.inr (by decide))).2.1⟩

/-- C1 (code bug): the singular typo `FREQ=DAY` normalizes to `FREQ=DAILY`
and parses to the canonical 2-day interval, but every plural typo is
mangled instead of fixed: the singular replacement fires first inside the
plural token (`FREQ=DAYS` -> `FREQ=DAILYS`, `FREQ=MINUTES` ->
`FREQ=MINUTELYS`, `FREQ=HOURS` -> `FREQ=HOURLYS`), leaving the plural
replacement lines dead, so a plural-typo rule fails to parse and does not
yield the canonical interval trigger. -/
theorem c1_plural_typo_bug :
    normalize_rrule "RRULE:FREQ=DAY;INTERVAL=2" = "RRULE:FREQ=DAILY;INTERVAL=2" ∧
    parse_rrule_to_interval_kwargs "RRULE:FREQ=DAILY;INTERVAL=2" =
      some (.kwargs (.days 2)) ∧
    normalize_rrule "RRULE:FREQ=DAYS;INTERVAL=2" = "RRULE:FREQ=DAILYS;INTERVAL=2" ∧
    parse_rrule_to_interval_kwargs "RRULE:FREQ=DAILYS;INTERVAL=2" = none ∧
    normalize_rrule "RRULE:FREQ=MINUTES;INTERVAL=5" =
      "RRULE:FREQ=MINUTELYS;INTERVAL=5" ∧
    normalize_rrule "RRULE:FREQ=HOURS;INTERVAL=2" =
      "RRULE:FREQ=HOURLYS;INTERVAL=2" := by
  refine ⟨?_, ?_, ?_, ?_, ?_, ?_⟩ <;> decide

/-- C9 (code bug): `persist_task_and_schedule` normalizes the rule before
scheduling but stores the raw rule, and
`restore_saved_reminders_from_db` schedules the raw stored rule without
normalizing; a stored rule that needs normalization (here: missing the
`RRULE:` prefix) is a 2-day interval when registered live but a 60-second
one-shot fallback when restored. -/
theorem c9_recovery_divergence :
    getJob (schedule_job_for_task 0 [] 1
        (normalize_rrule "FREQ=DAILY;INTERVAL=2")).2 (jobId 1) =
      some (.interval (.days 2)) ∧
    restore_saved_reminders_from_db 0 []
        [(1, "\x7b\x7d", some "FREQ=DAILY;INTERVAL=2")] =
      [(jobId 1, .date 60)] ∧
    PyTrigger.interval (.days 2) ≠ PyTrigger.date 60 := by
  refine ⟨?_, ?_, ?_⟩ <;> decide

theorem freqMapping_eq_none (fv : List Char) (i : Int)
    (h : fv ∉ ["SECONDLY".data, "MINUTELY".data, "HOURLY".data,
      "DAILY".data, "WEEKLY".data]) :
    freqMapping fv i = none := by
  simp only [List.mem_cons, List.not_mem_nil, or_false, not_or] at h
  obtain ⟨h1, h2, h3, h4, h5⟩ := h
  rw [freqMapping, if_neg h1, if_neg h2, if_neg h3, if_neg h4, if_neg h5]

theorem parseFromParts_fallback (parts : List (List Char × List Char))
    (hfreq : (dictGet parts ("FREQ".data)).getD ("MINUTELY".data) ∉
      ["SECONDLY".data, "MINUTELY".data, "HOURLY".data, "DAILY".data,
        "WEEKLY".data])
    (hbh : truthyOpt (dictGet parts ("BYHOUR".data)) = false)
    (hbm : truthyOpt (dictGet parts ("BYMINUTE".data)) = false)
    (hbd : truthyOpt (dictGet parts ("BYDAY".data)) = false) :
    parseFromParts parts = none := by
  simp only [parseFromParts]
  cases hi : intervalOfParts parts with
  | none => rfl
  | some i =>
      rw [hbh, hbm, hbd]
      simp only [Bool.or_self, Bool.or_false, Bool.false_eq_true, if_false]
      rw [freqMapping_eq_none _ _ hfreq]
      rfl

/-- C3 counterexample: `RRULE:FREQ=YEARLY` carries no
`BYHOUR`/`BYMINUTE`/`BYDAY` and an unrecognized `FREQ`, yet resolution is
the 60-second one-shot fallback `DateTrigger`, not an hourly/1
`IntervalTrigger` as the claim states. -/
theorem c3_counterexample :
    parse_rrule_to_interval_kwargs "RRULE:FREQ=YEARLY" = none ∧
    getJob (schedule_job_for_task 0 [] 2 "RRULE:FREQ=YEARLY").2 (jobId 2) =
      some (.date 60) ∧
    PyTrigger.date 60 ≠ PyTrigger.interval (.hours 1) := by
  refine ⟨?_, ?_, ?_⟩ <;> decide

/-- C3 (amended): for every rule whose frequency value (default `MINUTELY`)
is outside the five interval frequencies and whose
`BYHOUR`/`BYMINUTE`/`BYDAY` qualifiers are all absent or empty, the parser
returns no trigger and scheduling fails closed to the one-shot fallback
`Once(now + 60 s)` — one live job — not to an hourly/1 interval. -/
theorem c3_unrecognized_freq_amended (s : String) (now : Int) (tbl : JobTable)
    (tid : Nat)
    (hfreq : freqOfRule s.data ∉ ["SECONDLY".data, "MINUTELY".data,
      "HOURLY".data, "DAILY".data, "WEEKLY".data])
    (hbh : truthyOpt (dictGet (partsOfRule s.data) ("BYHOUR".data)) = false)
    (hbm : truthyOpt (dictGet (partsOfRule s.data) ("BYMINUTE".data)) = false)
    (hbd : truthyOpt (dictGet (partsOfRule s.data) ("BYDAY".data)) = false) :
    parse_rrule_to_interval_kwargs s = none ∧
    (schedule_job_for_task now tbl tid s).1 = true ∧
    countId (schedule_job_for_task now tbl tid s).2 (jobId tid) = 1 ∧
    getJob (schedule_job_for_task now tbl tid s).2 (jobId tid) =
      some (.date (now + 60)) := by
  have hp : parse_rrule_to_interval_kwargs s = none := by
    rw [parse_rrule_to_interval_kwargs, parseL]
    by_cases hg : (s.data.isEmpty || !(("RRULE:".data).isPrefixOf s.data)) = true
    · rw [if_pos hg]
    · rw [if_neg hg]
      exact parseFromParts_fallback _ hfreq hbh hbm hbd
  have htrig : installedTriggerOpt now s = some (.date (now + 60)) := by
    rw [installedTriggerOpt]
    by_cases honce : containsSub ("FREQ=ONCE".data) s.data = true
    · rw [if_pos honce]
    · rw [if_neg honce, hp]
  have he := schedule_job_eq_of_some now tbl tid s _ htrig
  exact ⟨hp, by rw [he], by rw [he]; exact countId_addJob_self _ _ _,
    by rw [he]; exact getJob_addJob_self _ _ _⟩

/-- Witness for the amended C3 at `RRULE:FREQ=MONTHLY`. -/
theorem c3_unrecognized_freq_amended_witness :
    parse_rrule_to_interval_kwargs "RRULE:FREQ=MONTHLY" = none ∧
    getJob (schedule_job_for_task 5 [] 3 "RRULE:FREQ=MONTHLY").2 (jobId 3) =
      some (.date 65) :=
  ⟨(c3_unrecognized_freq_amended "RRULE:FREQ=MONTHLY" 5 [] 3 (by decide)
      (by decide) (by decide) (by decide)).1,
   (c3_unrecognized_freq_amended "RRULE:FREQ=MONTHLY" 5 [] 3 (by decide)
      (by decide) (by decide) (by decide)).2.2.2⟩

theorem parseFromParts_cron (parts : List (List Char × List Char))
    (i h m : Int)
    (hi : intervalOfParts parts = some i)
    (hcarry : (truthyOpt (dictGet parts ("BYHOUR".data)) ||
        truthyOpt (dictGet parts ("BYMINUTE".data)) ||
        truthyOpt (dictGet parts ("BYDAY".data))) = true)
    (hhv : hourOfParts parts = some h) (hmv : minuteOfParts parts = some m)
    (hcron : cronFieldsOk (dowOfParts parts) h m = true) :
    parseFromParts parts = some (.cron (dowOfParts parts) h m) := by
  simp only [parseFromParts, hi, hcarry, hhv, hmv, hcron, if_true]

theorem hourOfParts_default (parts : List (List Char × List Char)) (h : Int)
    (hhv : hourOfParts parts = some h)
    (ht : truthyOpt (dictGet parts ("BYHOUR".data)) = false) : h = 9 := by
  rw [hourOfParts] at hhv
  cases hg : dictGet parts ("BYHOUR".data) with
  | none =>
      rw [hg] at hhv
      simpa using hhv.symm
  | some v =>
      rw [hg] at hhv
      rw [hg] at ht
      simp only [truthyOpt, Bool.not_eq_false'] at ht
      simp [ht] at hhv
      omega

theorem minuteOfParts_default (parts : List (List Char × List Char)) (m : Int)
    (hmv : minuteOfParts parts = some m)
    (ht : truthyOpt (dictGet parts ("BYMINUTE".data)) = false) : m = 0 := by
  rw [minuteOfParts] at hmv
  cases hg : dictGet parts ("BYMINUTE".data) with
  | none =>
      rw [hg] at hmv
      simpa using hmv.symm
  | some v =>
      rw [hg] at hmv
      rw [hg] at ht
      simp only [truthyOpt, Bool.not_eq_false'] at ht
      simp [ht] at hmv
      omega

theorem dowOfParts_default (parts : List (List Char × List Char))
    (ht : truthyOpt (dictGet parts ("BYDAY".data)) = false) :
    dowOfParts parts = "*".data := by
  rw [dowOfParts]
  cases hg : dictGet parts ("BYDAY".data) with
  | none => rfl
  | some v =>
      rw [hg] at ht
      simp only [truthyOpt, Bool.not_eq_false'] at ht
      simp [ht]

/-- C5 counterexample: `RRULE:FREQ=DAILY;BYHOUR=` carries a `BYHOUR`
qualifier (with an empty value) yet resolves to a 1-day
`IntervalTrigger` — an Interval, not a Calendar trigger — because the code
tests Python truthiness and an empty value counts as absent. -/
theorem c5_counterexample :
    dictGet (partsOfRule ("RRULE:FREQ=DAILY;BYHOUR=" : String).data)
      ("BYHOUR".data) = some [] ∧
    parse_rrule_to_interval_kwargs "RRULE:FREQ=DAILY;BYHOUR=" =
      some (.kwargs (.days 1)) ∧
    getJob (schedule_job_for_task 0 [] 4 "RRULE:FREQ=DAILY;BYHOUR=").2
      (jobId 4) = some (.interval (.days 1)) := by
  refine ⟨?_, ?_, ?_⟩ <;> decide

/-- C5 (amended): for every rule string — nonempty, `RRULE:`-prefixed,
integer-parsable `INTERVAL` and `BYHOUR`/`BYMINUTE` values, no `FREQ=ONCE`
token — carrying at least one of `BYHOUR`/`BYMINUTE`/`BYDAY` with a
*truthy* (nonempty) value, and whose resulting `day_of_week`/`hour`/
`minute` arguments pass `CronTrigger`'s field validation, resolution
yields a Calendar (cron) trigger and never an Interval trigger, with
default hour 9, default minute 0 and weekday `*` ("any day") for
whichever of the three qualifiers is absent or empty.  (Without the
validation hypothesis the trigger constructor raises inside the parser's
`try` — e.g. for the two-letter `BYDAY=MO` codes this repository itself
generates — and the rule falls to the 60-second one-shot instead.) -/
theorem c5_calendar_amended (s : String) (now : Int) (tbl : JobTable) (tid : Nat)
    (h m : Int)
    (hne : s.data.isEmpty = false)
    (hpre : ("RRULE:".data).isPrefixOf s.data = true)
    (hint : intervalOfParts (partsOfRule s.data) ≠ none)
    (hcarry : (truthyOpt (dictGet (partsOfRule s.data) ("BYHOUR".data)) ||
        truthyOpt (dictGet (partsOfRule s.data) ("BYMINUTE".data)) ||
        truthyOpt (dictGet (partsOfRule s.data) ("BYDAY".data))) = true)
    (hhv : hourOfParts (partsOfRule s.data) = some h)
    (hmv : minuteOfParts (partsOfRule s.data) = some m)
    (hcron : cronFieldsOk (dowOfParts (partsOfRule s.data)) h m = true)
    (honce : containsSub ("FREQ=ONCE".data) s.data = false) :
    parse_rrule_to_interval_kwargs s =
        some (.cron (dowOfParts (partsOfRule s.data)) h m) ∧
    (truthyOpt (dictGet (partsOfRule s.data) ("BYHOUR".data)) = false →
      h = 9) ∧
    (truthyOpt (dictGet (partsOfRule s.data) ("BYMINUTE".data)) = false →
      m = 0) ∧
    (truthyOpt (dictGet (partsOfRule s.data) ("BYDAY".data)) = false →
      dowOfParts (partsOfRule s.data) = "*".data) ∧
    getJob (schedule_job_for_task now tbl tid s).2 (jobId tid) =
      some (.cron (dowOfParts (partsOfRule s.data)) h m) ∧
    countId (schedule_job_for_task now tbl tid s).2 (jobId tid) = 1 ∧
    (∀ kw, parse_rrule_to_interval_kwargs s ≠ some (.kwargs kw)) := by
  obtain ⟨i, hi⟩ := Option.ne_none_iff_exists'.mp hint
  have hp : parse_rrule_to_interval_kwargs s =
      some (.cron (dowOfParts (partsOfRule s.data)) h m) := by
    rw [parse_rrule_to_interval_kwargs, parseL, if_neg (by simp [hne, hpre])]
    exact parseFromParts_cron _ i h m hi hcarry hhv hmv hcron
  have htrig : installedTriggerOpt now s =
      some (.cron (dowOfParts (partsOfRule s.data)) h m) := by
    rw [installedTriggerOpt, if_neg (by simp [honce]), hp]
  have he := schedule_job_eq_of_some now tbl tid s _ htrig
  refine ⟨hp,
    fun ht => hourOfParts_default _ h hhv ht,
    fun ht => minuteOfParts_default _ m hmv ht,
    fun ht => dowOfParts_default _ ht,
    by rw [he]; exact getJob_addJob_self _ _ _,
    by rw [he]; exact countId_addJob_self _ _ _,
    fun kw hk => by rw [hp] at hk; simp at hk⟩

/-- Witness for the amended C5 at a valid weekly rule (`MON` is a weekday
name `CronTrigger` accepts). -/
theorem c5_calendar_amended_witness :
    parse_rrule_to_interval_kwargs "RRULE:FREQ=WEEKLY;BYDAY=MON;BYHOUR=9" =
      some (.cron (dowOfParts (partsOfRule
        ("RRULE:FREQ=WEEKLY;BYDAY=MON;BYHOUR=9" : String).data)) 9 0) ∧
    countId (schedule_job_for_task 0 [] 8
      "RRULE:FREQ=WEEKLY;BYDAY=MON;BYHOUR=9").2 (jobId 8) = 1 :=
  ⟨(c5_calendar_amended "RRULE:FREQ=WEEKLY;BYDAY=MON;BYHOUR=9" 0 [] 8 9 0
      (by decide) (by decide) (by decide) (by decide) (by decide) (by decide)
      (by decide) (by decide)).1,
   (c5_calendar_amended "RRULE:FREQ=WEEKLY;BYDAY=MON;BYHOUR=9" 0 [] 8 9 0
      (by decide) (by decide) (by decide) (by decide) (by decide) (by decide)
      (by decide) (by decide)).2.2.2.2.2.1⟩

theorem restore_abort (now : Int) :
    ∀ (good : List (Nat × String × Option String)) (tbl : JobTable)
      (bad : Nat × String × Option String)
      (rest : List (Nat × String × Option String)),
      (∀ r ∈ good, jsonOk r.2.1 = true) → jsonOk bad.2.1 = false →
      restore_saved_reminders_from_db now tbl (good ++ bad :: rest) =
        restore_saved_reminders_from_db now tbl good := by
  intro good
  induction good with
  | nil =>
      intro tbl bad rest _ hb
      obtain ⟨tid, pj, rule⟩ := bad
      simp only [List.nil_append, restore_saved_reminders_from_db]
      rw [if_neg (by simp [hb])]
  | cons r rs ih =>
      intro tbl bad rest hg hb
      obtain ⟨tid, pj, rule⟩ := r
      have hr : jsonOk pj = true := hg _ (List.mem_cons_self _ _)
      simp only [List.cons_append, restore_saved_reminders_from_db]
      rw [if_pos hr, if_pos hr]
      exact ih _ bad rest (fun x hx => hg x (List.mem_cons_of_mem _ hx)) hb

theorem restore_length (now : Int) :
    ∀ (rows : List (Nat × String × Option String)) (tbl : JobTable),
      (∀ r ∈ rows, jsonOk r.2.1 = true) →
      (∀ r ∈ rows, ruleOverflowSafe now (r.2.2.getD "") = true) →
      (∀ r ∈ rows, getJob tbl (jobId r.1) = none) →
      (rows.map (fun r => r.1)).Nodup →
      (restore_saved_reminders_from_db now tbl rows).length =
        tbl.length + rows.length := by
  intro rows
  induction rows with
  | nil =>
      intro tbl _ _ _ _
      simp [restore_saved_reminders_from_db]
  | cons r rs ih =>
      intro tbl hok hsafe hfresh hnodup
      obtain ⟨tid, pj, rule⟩ := r
      have hr : jsonOk pj = true := hok _ (List.mem_cons_self _ _)
      simp only [restore_saved_reminders_from_db]
      rw [if_pos hr]
      have hfresh0 : getJob tbl (jobId tid) = none :=
        hfresh _ (List.mem_cons_self _ _)
      obtain ⟨t, ht⟩ := installedTriggerOpt_of_safe now (rule.getD "")
        (hsafe _ (List.mem_cons_self _ _))
      have hsch := schedule_job_eq_of_some now tbl tid (rule.getD "") t ht
      rw [List.map_cons] at hnodup
      have hnodups := List.nodup_cons.mp hnodup
      have hfresh' : ∀ r' ∈ rs,
          getJob (schedule_job_for_task now tbl tid (rule.getD "")).2
            (jobId r'.1) = none := by
        intro r' hr'
        rw [hsch]
        have hne : ¬ jobId r'.1 = jobId tid := by
          intro hcon
          exact hnodups.1 (by
            have : r'.1 = tid := jobId_inj _ _ hcon
            exact this ▸ List.mem_map_of_mem (fun x => x.1) hr')
        rw [getJob_addJob_ne _ _ _ _ hne]
        exact hfresh _ (List.mem_cons_of_mem _ hr')
      rw [ih _ (fun x hx => hok x (List.mem_cons_of_mem _ hx))
        (fun x hx => hsafe x (List.mem_cons_of_mem _ hx)) hfresh'
        hnodups.2]
      rw [hsch]
      simp only [length_addJob_of_fresh tbl _ _ hfresh0, List.length_cons]
      omega

/-- C2 counterexample: two persisted enabled records with distinct ids, the
first malformed (`params_json` is not JSON): the claim demands N−1 = 1 live
job, but the exception aborts the whole restore loop and 0 jobs exist. -/
theorem c2_counterexample :
    (restore_saved_reminders_from_db 0 []
      [(1, "not-json", some "RRULE:FREQ=DAILY;INTERVAL=1"),
       (2, "\x7b\x7d", some "RRULE:FREQ=DAILY;INTERVAL=1")]).length = 0 ∧
    (0 : Nat) ≠ 2 - 1 := by
  refine ⟨?_, ?_⟩ <;> decide

/-- C2 (amended): with zero malformed records, distinct ids and no record
whose rule hits the `IntervalTrigger` overflow,
`restore_saved_reminders_from_db` starting from an empty job store yields
exactly N live jobs; but one malformed record aborts the loop at that
point: the records before it are restored and the malformed record and all
subsequent ones are skipped (a malformed record at 0-based position i
yields exactly i live jobs, not N−1). -/
theorem c2_recovery_amended (now : Int)
    (good : List (Nat × String × Option String))
    (hok : ∀ r ∈ good, jsonOk r.2.1 = true)
    (hsafe : ∀ r ∈ good, ruleOverflowSafe now (r.2.2.getD "") = true)
    (hnodup : (good.map (fun r => r.1)).Nodup) :
    (restore_saved_reminders_from_db now [] good).length = good.length ∧
    (∀ (bad : Nat × String × Option String) rest, jsonOk bad.2.1 = false →
      restore_saved_reminders_from_db now [] (good ++ bad :: rest) =
        restore_saved_reminders_from_db now [] good) := by
  constructor
  · have := restore_length now good [] hok hsafe (fun r _ => rfl) hnodup
    simpa using this
  · intro bad rest hb
    exact restore_abort now good [] bad rest hok hb

/-- Witness for the amended C2: two well-formed records restore to two live
jobs, and appending a malformed third record after them leaves the first
two restorations untouched. -/
theorem c2_recovery_amended_witness :
    (restore_saved_reminders_from_db 0 []
      [(1, "\x7b\x7d", some "RRULE:FREQ=DAILY;INTERVAL=1"),
       (2, "\x7b\x7d", some "RRULE:FREQ=HOURLY;INTERVAL=2")]).length = 2 ∧
    restore_saved_reminders_from_db 0 []
        ([(1, "\x7b\x7d", some "RRULE:FREQ=DAILY;INTERVAL=1"),
          (2, "\x7b\x7d", some "RRULE:FREQ=HOURLY;INTERVAL=2")] ++
          [(3, "broken", some "RRULE:FREQ=DAILY;INTERVAL=1")]) =
      restore_saved_reminders_from_db 0 []
        [(1, "\x7b\x7d", some "RRULE:FREQ=DAILY;INTERVAL=1"),
         (2, "\x7b\x7d", some "RRULE:FREQ=HOURLY;INTERVAL=2")] :=
  ⟨(c2_recovery_amended 0
      [(1, "\x7b\x7d", some "RRULE:FREQ=DAILY;INTERVAL=1"),
       (2, "\x7b\x7d", some "RRULE:FREQ=HOURLY;INTERVAL=2")]
      (by decide) (by decide) (by decide)).1,
   (c2_recovery_amended 0
      [(1, "\x7b\x7d", some "RRULE:FREQ=DAILY;INTERVAL=1"),
       (2, "\x7b\x7d", some "RRULE:FREQ=HOURLY;INTERVAL=2")]
      (by decide) (by decide) (by decide)).2
      (3, "broken", some "RRULE:FREQ=DAILY;INTERVAL=1") [] (by decide)⟩
